import Mathlib

/-!
# tgbot-spellcheck: rate limiter, dedup store and message pipeline

A shallow embedding of `internal/ratelimit/ratelimiter.go`,
`internal/storage/storage.go` and `internal/bot/bot.go`, followed by the
properties proved about them.

Conventions of the embedding:

* a method that mutates its receiver returns the new receiver value;
  the mutexes of the source make every method body one atomic step, which is
  what a function from state to state expresses;
* a Go `string` is its sequence of bytes;
* calls that leave the process (`time.Now`, the correction service, the
  Telegram API) take their result from an explicit argument, and every call
  made is recorded, in program order, in a list of `Effect`s;
* `go b.processMessage(...)` is recorded as the goroutine `handleUpdate`
  started; `handleTwice` places the calls of that goroutine before and after
  the next update, since `Run` does not wait for it;
* `log.Printf` lines are not modelled.
-/

namespace gotime

/-! A Go `time.Duration` is a count of nanoseconds held in an `int64`; it is
an `Int` here. -/

/-- Largest `time.Duration`, `1<<63 - 1`. -/
def maxDuration : Int := 2 ^ 63 - 1

/-- Smallest `time.Duration`, `-1 << 63`. -/
def minDuration : Int := -(2 ^ 63)

/-- Go `time.Second` in nanoseconds. -/
def Second : Int := 1000000000

/-- Go `time.Time`: the wall clock instant `wall`, in nanoseconds elapsed since
January 1, year 1, 00:00:00 UTC, and the monotonic clock reading `mono`, in
nanoseconds, when the value carries one. Every `time.Now()` value carries one;
the zero value `time.Time{}` has `wall = 0` and none. The location is not
modelled. -/
structure Time where
  wall : Int
  mono : Option Int
deriving DecidableEq, Repr

/-- Go `Time.IsZero`: the wall clock instant is January 1, year 1, 00:00:00 UTC;
the monotonic reading plays no part. -/
def Time.IsZero (t : Time) : Bool := t.wall == 0

/-- A difference of two clock readings as a `time.Duration`: the maximum (or
minimum) duration when it does not fit. -/
def saturate (d : Int) : Int :=
  if d > maxDuration then maxDuration
  else if d < minDuration then minDuration
  else d

/-- Go `Time.Sub`: when both values carry a monotonic reading, the difference of
the monotonic readings; otherwise the difference of the wall clock instants;
in both cases saturated. -/
def Time.Sub (t u : Time) : Int :=
  match t.mono, u.mono with
  | some te, some ue => saturate (te - ue)
  | _, _ => saturate (t.wall - u.wall)

/-- Go `Time.Before`: on the monotonic readings when both values carry one,
otherwise on the wall clock instants. -/
def Time.Before (t u : Time) : Bool :=
  match t.mono, u.mono with
  | some te, some ue => decide (te < ue)
  | _, _ => decide (t.wall < u.wall)

/-- Go `Time.Add` for a duration that overflows neither clock: the wall clock
instant and the monotonic reading, if any, both move by `d`. -/
def Time.Add (t : Time) (d : Int) : Time :=
  ⟨t.wall + d, t.mono.map (fun m => m + d)⟩

end gotime

namespace ratelimit

open gotime

/-- The `IntervalLimiter` struct (its mutex apart). -/
structure IntervalLimiter where
  minInterval : Int
  last : Time
deriving DecidableEq, Repr

/-- The constructor `NewIntervalLimiter`: `last` is left at the zero `time.Time`. -/
def NewIntervalLimiter (minInterval : Int) : IntervalLimiter :=
  { minInterval := minInterval, last := ⟨0, none⟩ }

/-- The method `IntervalLimiter.Allow`: the returned boolean and the limiter
afterwards. -/
def IntervalLimiter.Allow (l : IntervalLimiter) (now : Time) : Bool × IntervalLimiter :=
  if l.last.IsZero || decide (now.Sub l.last ≥ l.minInterval) then
    (true, { l with last := now })
  else
    (false, l)

/-- The booleans returned by successive `Allow` calls at the given instants. -/
def allowAll (l : IntervalLimiter) : List Time → List Bool
  | [] => []
  | now :: rest => (l.Allow now).1 :: allowAll (l.Allow now).2 rest

end ratelimit

namespace storage

/-- The `InMemoryStore` struct (its mutex apart): `map[int64]map[int]struct{}`,
a finite map from chat id to the set of message ids. -/
structure InMemoryStore where
  data : Finmap (fun _ : Int => Finset Int)
deriving DecidableEq

/-- The constructor `NewInMemoryStore`: an empty outer map. -/
def NewInMemoryStore : InMemoryStore := ⟨∅⟩

/-- The method `InMemoryStore.WasProcessed`. -/
def InMemoryStore.WasProcessed (s : InMemoryStore) (chatID messageID : Int) : Bool :=
  match s.data.lookup chatID with
  | none => false
  | some m => decide (messageID ∈ m)

/-- The method `InMemoryStore.MarkProcessed`: a missing inner map is created and stored
first; the write `m[messageID] = struct{}{}` then goes through the reference
the outer map holds. -/
def InMemoryStore.MarkProcessed (s : InMemoryStore) (chatID messageID : Int) : InMemoryStore :=
  match s.data.lookup chatID with
  | none => ⟨(s.data.insert chatID ∅).insert chatID (insert messageID ∅)⟩
  | some m => ⟨s.data.insert chatID (insert messageID m)⟩

/-- A sequence of `MarkProcessed` calls, one per pair, in order. -/
def markAll (s : InMemoryStore) (pairs : List (Int × Int)) : InMemoryStore :=
  pairs.foldl (fun st p => st.MarkProcessed p.1 p.2) s

end storage

/-- A Go `string`: its bytes. -/
abbrev GoString := List UInt8

/-- The bytes of a string literal of the source (UTF-8). -/
def ofString (s : String) : GoString := s.toUTF8.data.toList

/-- A non-nil Go `error`, by its message. -/
abbrev GoError := String

namespace tgbotapi

/-- The fields of `tgbotapi.User` the bot reads. -/
structure User where
  ID : Int
  IsBot : Bool
deriving DecidableEq

/-- The field of `tgbotapi.Chat` the bot reads. -/
structure Chat where
  ID : Int
deriving DecidableEq

/-- The fields of `tgbotapi.Message` the bot reads; `From` and `Chat` are
pointers and may be nil. -/
structure Message where
  MessageID : Int
  From : Option User
  Chat : Option Chat
  Text : GoString
  Caption : GoString
deriving DecidableEq

/-- The fields of `tgbotapi.Update` the bot reads; `ChannelPost` may be nil. -/
structure Update where
  UpdateID : Int
  ChannelPost : Option Message
deriving DecidableEq

end tgbotapi

namespace config

/-- The `Config` struct. -/
structure Config where
  TelegramToken : GoString
  OpenAIKey : GoString
  ChannelID : Int
  MinInterval : Int
  OpenAIModel : GoString
deriving DecidableEq

end config

namespace bot

open gotime ratelimit storage tgbotapi

/-- The constant `processedMarker`. -/
def processedMarker : GoString := ofString "[spellchecked]"

/-- The text `notifyRateLimited` sends. -/
def rateLimitedText : GoString :=
  ofString "Лимит проверки орфографии исчерпан. Попробуйте опубликовать новый пост чуть позже."

/-- The slice expression `s[lo:hi]` of a string; `none` is the run-time panic
for bounds out of range. -/
def slice (s : GoString) (lo hi : Nat) : Option GoString :=
  if lo ≤ hi ∧ hi ≤ s.length then some ((s.drop lo).take (hi - lo)) else none

/-- The loop of `contains`, entered with loop variable `i`; `none` is a panic
of the slice expression. -/
def containsFrom (s substr : GoString) (i : Nat) : Option Bool :=
  if i + substr.length ≤ s.length then
    match slice s i (i + substr.length) with
    | none => none
    | some w => if w = substr then some true else containsFrom s substr (i + 1)
  else
    some false
termination_by s.length + 1 - i

/-- The helper `contains`. -/
def contains (s substr : GoString) : Option Bool := containsFrom s substr 0

/-- The helper `containsMarker`; `&&` and `||` evaluate their right operand
only when needed. -/
def containsMarker (text : GoString) : Option Bool :=
  if text.length ≥ processedMarker.length then
    if text = processedMarker then some true else contains text processedMarker
  else
    some false

/-- A call the bot makes on one of its collaborators. -/
inductive Effect where
  /-- The call `b.store.WasProcessed(chatID, messageID)`. -/
  | WasProcessed (chatID messageID : Int)
  /-- The call `b.store.MarkProcessed(chatID, messageID)`. -/
  | MarkProcessed (chatID messageID : Int)
  /-- The call `b.limiter.Allow(now)`. -/
  | Allow (now : Time)
  /-- The call `b.openai.CorrectText(ctx, text)`. -/
  | CorrectText (text : GoString)
  /-- The call `b.telegram.Request` with a `DeleteMessageConfig` for
  `chatID`, `messageID`. -/
  | DeleteMessage (chatID messageID : Int)
  /-- The call `b.telegram.Send(NewMessage(chatID, text))`. -/
  | Send (chatID : Int) (text : GoString)
deriving DecidableEq

/-- The `Bot` struct: configuration, limiter and store. The two API clients
hold no state the bot reads; their calls appear as `Effect`s. -/
structure Bot where
  cfg : config.Config
  limiter : IntervalLimiter
  store : InMemoryStore
deriving DecidableEq

/-- The constructor `New`, given the error `tgbotapi.NewBotAPI` returned, if any. -/
def New (cfg : config.Config) (store : InMemoryStore) (apiErr : Option GoError) :
    Except GoError Bot :=
  match apiErr with
  | some err => .error err
  | none => .ok { cfg := cfg, limiter := NewIntervalLimiter cfg.MinInterval, store := store }

/-- The arguments of a `go b.processMessage(ctx, chatID, messageID, text)`. -/
structure Spawn where
  chatID : Int
  messageID : Int
  text : GoString
deriving DecidableEq

/-- What one `handleUpdate` call leaves behind: the bot afterwards, the calls it
made, and the goroutine it started, if any. -/
structure Handled where
  bot : Bot
  effects : List Effect
  spawned : Option Spawn
deriving DecidableEq

/-- The method `notifyRateLimited`: one `Send`; its error is only logged. -/
def notifyRateLimited (chatID : Int) (sendErr : Option GoError) : List Effect :=
  match sendErr with
  | some _ => [Effect.Send chatID rateLimitedText]
  | none => [Effect.Send chatID rateLimitedText]

/-- The test `msg.From != nil && msg.From.IsBot` of `handleUpdate`. -/
def fromBot (msg : Message) : Bool :=
  match msg.From with
  | some u => u.IsBot
  | none => false

/-- The local `text` of `handleUpdate`: `msg.Text`, or `msg.Caption` when that
is empty. -/
def resolvedText (msg : Message) : GoString :=
  if msg.Text = [] then msg.Caption else msg.Text

/-- The method `Bot.handleUpdate`, with `now` the value of `time.Now()` and `notifyErr`
the error of the `Send` inside `notifyRateLimited`; `none` is a panic. -/
def handleUpdate (b : Bot) (now : Time) (notifyErr : Option GoError) (update : Update) :
    Option Handled :=
  match update.ChannelPost with
  | none => some ⟨b, [], none⟩
  | some msg =>
    match msg.Chat with
    | none => some ⟨b, [], none⟩
    | some chat =>
      if chat.ID ≠ b.cfg.ChannelID then some ⟨b, [], none⟩
      else if fromBot msg then some ⟨b, [], none⟩
      else if msg.Text = [] ∧ msg.Caption = [] then some ⟨b, [], none⟩
      else if b.store.WasProcessed chat.ID msg.MessageID then
        some ⟨b, [.WasProcessed chat.ID msg.MessageID], none⟩
      else
        let text := resolvedText msg
        if text = [] then some ⟨b, [.WasProcessed chat.ID msg.MessageID], none⟩
        else
          match containsMarker text with
          | none => none
          | some true =>
            some ⟨{ b with store := b.store.MarkProcessed chat.ID msg.MessageID },
              [.WasProcessed chat.ID msg.MessageID, .MarkProcessed chat.ID msg.MessageID], none⟩
          | some false =>
            if !(b.limiter.Allow now).1 then
              some ⟨{ b with limiter := (b.limiter.Allow now).2,
                             store := b.store.MarkProcessed chat.ID msg.MessageID },
                [.WasProcessed chat.ID msg.MessageID, .Allow now]
                  ++ notifyRateLimited chat.ID notifyErr
                  ++ [.MarkProcessed chat.ID msg.MessageID], none⟩
            else
              some ⟨{ b with limiter := (b.limiter.Allow now).2 },
                [.WasProcessed chat.ID msg.MessageID, .Allow now],
                some ⟨chat.ID, msg.MessageID, text⟩⟩

/-- The results the collaborators hand to one `processMessage` run:
`corrected, correctErr` from `CorrectText` (a deadline exceeded is one such
error), `deleteErr` from the delete request, `sendErr` from the `Send`. -/
structure Replies where
  corrected : GoString
  correctErr : Option GoError
  deleteErr : Option GoError
  sendErr : Option GoError
deriving DecidableEq

/-- The method `Bot.processMessage`: the bot afterwards and the calls it made. -/
def processMessage (b : Bot) (chatID messageID : Int) (text : GoString) (r : Replies) :
    Bot × List Effect :=
  match r.correctErr with
  | some _ => (b, [.CorrectText text])
  | none =>
    let correctedWithMarker := r.corrected ++ ofString "\n" ++ processedMarker
    let deleted : List Effect :=
      match r.deleteErr with
      | some _ => [.DeleteMessage chatID messageID]
      | none => [.DeleteMessage chatID messageID]
    match r.sendErr with
    | some _ => (b, [.CorrectText text] ++ deleted ++ [.Send chatID correctedWithMarker])
    | none =>
      ({ b with store := b.store.MarkProcessed chatID messageID },
        [.CorrectText text] ++ deleted ++ [.Send chatID correctedWithMarker]
          ++ [.MarkProcessed chatID messageID])

/-- What the outside world answers during one delivery of an update. -/
structure Delivery where
  now : Time
  notifyErr : Option GoError
  replies : Replies
deriving DecidableEq

/-- The calls `handleUpdate` makes for `update` followed by all the calls of the
goroutine it started, if any: what happens for one update when nothing else
runs until that goroutine has returned. `Run` itself does not wait for the
goroutine; `handleTwice` below covers the other schedules. -/
def deliver (b : Bot) (update : Update) (d : Delivery) : Option (Bot × List Effect) :=
  match handleUpdate b d.now d.notifyErr update with
  | none => none
  | some h =>
    match h.spawned with
    | none => some (h.bot, h.effects)
    | some sp =>
      some ((processMessage h.bot sp.chatID sp.messageID sp.text d.replies).1,
        h.effects ++ (processMessage h.bot sp.chatID sp.messageID sp.text d.replies).2)

/-- The same update handled twice in the schedule in which the goroutine of
the first has returned before `Run` receives the second. -/
def deliverTwice (b : Bot) (update : Update) (d₁ d₂ : Delivery) : Option (Bot × List Effect) :=
  match deliver b update d₁ with
  | none => none
  | some (b₁, e₁) =>
    match deliver b₁ update d₂ with
    | none => none
    | some (b₂, e₂) => some (b₂, e₁ ++ e₂)

/-- What a call made by a `processMessage` goroutine does to the bot: the
`MarkProcessed` call writes the store, the other calls go to the correction
service and to Telegram and leave the bot as it is. -/
def Effect.onBot (b : Bot) : Effect → Bot
  | .MarkProcessed chatID messageID => { b with store := b.store.MarkProcessed chatID messageID }
  | _ => b

/-- The loop of `Run` receiving the same update twice. `Run` calls
`handleUpdate` and goes on to the next update without waiting for the goroutine
started by `go b.processMessage(...)`; `k` is the number of calls the goroutine
of the first update has made when the second update is handled (0: none yet;
4 or more: it has returned, as it makes at most four). The rest of its calls
and the goroutine of the second update, if one is started, follow. A call of
the first goroutine that falls inside the second `handleUpdate` is placed
after it: `handleUpdate` reads the store once, at its first call, and
`MarkProcessed` of a pair gives the same store in either order. -/
def handleTwice (k : Nat) (b : Bot) (update : Update) (d₁ d₂ : Delivery) :
    Option (Bot × List Effect) :=
  match handleUpdate b d₁.now d₁.notifyErr update with
  | none => none
  | some h₁ =>
    let run₁ : List Effect :=
      match h₁.spawned with
      | none => []
      | some sp => (processMessage h₁.bot sp.chatID sp.messageID sp.text d₁.replies).2
    match handleUpdate ((run₁.take k).foldl Effect.onBot h₁.bot) d₂.now d₂.notifyErr update with
    | none => none
    | some h₂ =>
      let b₂ := (run₁.drop k).foldl Effect.onBot h₂.bot
      let es := h₁.effects ++ run₁.take k ++ h₂.effects ++ run₁.drop k
      match h₂.spawned with
      | none => some (b₂, es)
      | some sp =>
        some ((processMessage b₂ sp.chatID sp.messageID sp.text d₂.replies).1,
          es ++ (processMessage b₂ sp.chatID sp.messageID sp.text d₂.replies).2)

/-- Number of `CorrectText` calls in a list of effects. -/
def correctCalls (es : List Effect) : Nat :=
  es.countP (fun e => match e with | .CorrectText _ => true | _ => false)

/-- Number of `Send` calls in a list of effects. -/
def sendCalls (es : List Effect) : Nat :=
  es.countP (fun e => match e with | .Send _ _ => true | _ => false)

/-- Number of delete requests in a list of effects. -/
def deleteCalls (es : List Effect) : Nat :=
  es.countP (fun e => match e with | .DeleteMessage _ _ => true | _ => false)

/-- A sample configuration: the default interval of 600 seconds. -/
def exampleConfig : config.Config :=
  { TelegramToken := ofString "token", OpenAIKey := ofString "key",
    ChannelID := -1001234567890, MinInterval := 600 * Second,
    OpenAIModel := ofString "gpt-4.1-mini" }

/-- A bot as `New` builds it from `exampleConfig` and `NewInMemoryStore`. -/
def exampleBot : Bot :=
  { cfg := exampleConfig, limiter := NewIntervalLimiter exampleConfig.MinInterval,
    store := NewInMemoryStore }

/-- A sample `time.Now()` value, in the year 2025, one second after the
monotonic clock started. -/
def t₀ : Time := ⟨63900000000000000000, some 1000000000⟩

/-- A sample channel post in the configured channel, by no bot, with a
misspelt text and no marker. -/
def examplePost : Message :=
  { MessageID := 7, From := some ⟨42, false⟩, Chat := some ⟨-1001234567890⟩,
    Text := ofString "Превет мир", Caption := [] }

/-- The update carrying `examplePost`. -/
def exampleUpdate : Update := { UpdateID := 1, ChannelPost := some examplePost }

/-- Replies of a run in which correction, delete and send all succeed. -/
def repliesOk : Replies :=
  { corrected := ofString "Привет, мир", correctErr := none, deleteErr := none, sendErr := none }

/-- Replies of a run in which the delete request fails and the rest succeeds. -/
def repliesDeleteFails : Replies :=
  { repliesOk with deleteErr := some "Bad Request: message can't be deleted" }

/-- The sample bot after one admission by its limiter at `t₀`. -/
def exampleBotAdmitted : Bot :=
  { exampleBot with limiter := (exampleBot.limiter.Allow t₀).2 }

/-- The sample bot after an admission 600 seconds after `t₀` and with the pair
of `examplePost` marked. -/
def exampleBotDone : Bot :=
  { cfg := exampleConfig,
    limiter := { minInterval := 600 * Second, last := (t₀.Add (600 * Second)) },
    store := NewInMemoryStore.MarkProcessed (-1001234567890) 7 }

/-- A delivery at `t₀` in which every collaborator succeeds. -/
def deliveryOk : Delivery :=
  { now := t₀, notifyErr := none, replies := repliesOk }

/-- A delivery at `t₀` in which the correction call exceeds its deadline. -/
def deliveryTimeout : Delivery :=
  { now := t₀, notifyErr := none,
    replies := { corrected := [], correctErr := some "context deadline exceeded",
                 deleteErr := none, sendErr := none } }

/-- A delivery at `t₀` in which the correction succeeds and the send fails. -/
def deliverySendFails : Delivery :=
  { now := t₀, notifyErr := none, replies := { repliesOk with sendErr := some "Bad Gateway" } }

/-- A delivery 5 seconds after `t₀` in which every collaborator succeeds. -/
def deliverySoon : Delivery :=
  { now := t₀.Add (5 * Second), notifyErr := none, replies := repliesOk }

/-- A delivery 600 seconds after `t₀` in which every collaborator succeeds. -/
def deliveryLater : Delivery :=
  { now := (t₀.Add (600 * Second)), notifyErr := none, replies := repliesOk }

/-- A channel post whose text already carries the marker. -/
def markedPost : Message :=
  { MessageID := 8, From := none, Chat := some ⟨-1001234567890⟩,
    Text := ofString "Привет, мир\n[spellchecked]", Caption := [] }

/-- A channel post written by a bot. -/
def botPost : Message :=
  { MessageID := 9, From := some ⟨99, true⟩, Chat := some ⟨-1001234567890⟩,
    Text := ofString "Превет мир", Caption := [] }

end bot

/-! ## Rate limiter -/

namespace ratelimit

open gotime

theorem saturate_le_of_pos (d : Int) (h : 0 < d) : saturate d ≤ d ∧ saturate d ≤ maxDuration := by
  unfold saturate maxDuration minDuration
  split_ifs <;> constructor <;> omega

theorem le_saturate (m d : Int) (h₁ : m ≤ d) (h₂ : m ≤ maxDuration) : m ≤ saturate d := by
  unfold saturate
  unfold maxDuration minDuration at *
  split_ifs <;> omega

theorem Sub_wall (t u : Time) (h : t.mono = none ∨ u.mono = none) :
    t.Sub u = saturate (t.wall - u.wall) := by
  unfold Time.Sub
  rcases h with h | h
  · rw [h]
  · rw [h]
    cases t.mono <;> rfl

theorem Allow_fst (l : IntervalLimiter) (now : Time) :
    (l.Allow now).1 = (l.last.IsZero || decide (now.Sub l.last ≥ l.minInterval)) := by
  unfold IntervalLimiter.Allow
  split_ifs with h <;> simp_all

theorem Allow_snd_of_true (l : IntervalLimiter) (now : Time) (h : (l.Allow now).1 = true) :
    (l.Allow now).2 = { l with last := now } := by
  unfold IntervalLimiter.Allow at *
  split_ifs with h' <;> simp_all

theorem Allow_snd_of_false (l : IntervalLimiter) (now : Time) (h : (l.Allow now).1 = false) :
    (l.Allow now).2 = l := by
  unfold IntervalLimiter.Allow at *
  split_ifs with h' <;> simp_all

theorem Allow_minInterval (l : IntervalLimiter) (now : Time) :
    (l.Allow now).2.minInterval = l.minInterval := by
  unfold IntervalLimiter.Allow
  split_ifs <;> rfl

/-- Claim C9: `Allow(now)` returns true exactly when `last` is the zero time or
`now.Sub(last)` is at least `minInterval`; a true result stores exactly `now`
as `last`, a false result leaves the limiter as it was. The difference is Go's
`Time.Sub`; the last two parts spell it out for an interval that is a
`time.Duration` other than the smallest one: the exact difference of the
monotonic readings when `now` and `last` both carry one (two `time.Now()`
values), of the wall clock instants otherwise. -/
theorem Allow_spec (l : IntervalLimiter) (now : Time) :
    ((l.Allow now).1 = true ↔ (l.last.IsZero = true ∨ l.minInterval ≤ now.Sub l.last))
    ∧ ((l.Allow now).1 = true → (l.Allow now).2 = { minInterval := l.minInterval, last := now })
    ∧ ((l.Allow now).1 = false → (l.Allow now).2 = l)
    ∧ (∀ m₁ m₀ : Int, now.mono = some m₁ → l.last.mono = some m₀ →
        minDuration < l.minInterval → l.minInterval ≤ maxDuration →
        ((l.Allow now).1 = true ↔ (l.last.wall = 0 ∨ l.minInterval ≤ m₁ - m₀)))
    ∧ ((now.mono = none ∨ l.last.mono = none) →
        minDuration < l.minInterval → l.minInterval ≤ maxDuration →
        ((l.Allow now).1 = true ↔ (l.last.wall = 0 ∨ l.minInterval ≤ now.wall - l.last.wall))) := by
  have hiff : (l.Allow now).1 = true ↔ (l.last.IsZero = true ∨ l.minInterval ≤ now.Sub l.last) := by
    rw [Allow_fst]; simp
  have hz : l.last.IsZero = true ↔ l.last.wall = 0 := by simp [Time.IsZero]
  have hsat : ∀ d : Int, minDuration < l.minInterval → l.minInterval ≤ maxDuration →
      (l.minInterval ≤ saturate d ↔ l.minInterval ≤ d) := by
    intro d hlo hhi
    unfold saturate
    unfold maxDuration minDuration at *
    split_ifs <;> omega
  refine ⟨hiff, Allow_snd_of_true l now, Allow_snd_of_false l now, ?_, ?_⟩
  · intro m₁ m₀ h₁ h₀ hlo hhi
    have hsub : now.Sub l.last = saturate (m₁ - m₀) := by
      unfold Time.Sub
      rw [h₁, h₀]
    rw [hiff, hz, hsub, hsat _ hlo hhi]
  · intro hn hlo hhi
    have hsub : now.Sub l.last = saturate (now.wall - l.last.wall) := by
      unfold Time.Sub
      rcases hn with hn | hn
      · rw [hn]
      · rw [hn]
        cases now.mono <;> rfl
    rw [hiff, hz, hsub, hsat _ hlo hhi]

/-- After an admission at `l.last`, not the zero time, every later call that
is granted lies at least `minInterval` after it on the clock `r` that
`Time.Sub` reads. -/
theorem granted_after_last (r : Time → Int) (l : IntervalLimiter) (hl : l.last.IsZero = false) :
    ∀ (ts : List Time), ts.Pairwise (fun a b => r a < r b) → (∀ t ∈ ts, r l.last < r t) →
      (∀ t ∈ ts, t.Sub l.last = saturate (r t - r l.last)) →
      ∀ (j : Nat) (b : Time), ts[j]? = some b → (allowAll l ts)[j]? = some true →
        l.minInterval ≤ r b - r l.last ∧ l.minInterval ≤ maxDuration := by
  intro ts
  induction ts with
  | nil => intro _ _ _ j b hb; simp at hb
  | cons t rest ih =>
    intro hs hgt hsub j b hb hj
    have ht : r l.last < r t := hgt t (by simp)
    have hfirst : (l.Allow t).1 = true →
        l.minInterval ≤ r t - r l.last ∧ l.minInterval ≤ maxDuration := by
      intro hg
      rw [Allow_fst] at hg
      simp [hl] at hg
      rw [hsub t (by simp)] at hg
      have := saturate_le_of_pos (r t - r l.last) (by omega)
      constructor <;> omega
    rw [List.pairwise_cons] at hs
    cases j with
    | zero =>
      simp [allowAll] at hb hj
      subst hb
      exact hfirst hj
    | succ j =>
      simp [allowAll] at hb hj
      cases hgr : (l.Allow t).1 with
      | true =>
        have h1 := hfirst hgr
        have h2 : r t < r b := hs.1 b (List.getElem?_mem hb)
        constructor <;> omega
      | false =>
        rw [Allow_snd_of_false l t hgr] at hj
        exact ih hs.2 (fun x hx => hgt x (by simp [hx])) (fun x hx => hsub x (by simp [hx]))
          j b hb hj

/-- The spacing of granted calls, from any limiter state, on the clock `r`
that `Time.Sub` reads. -/
theorem granted_spaced (r : Time → Int) (l : IntervalLimiter) :
    ∀ (ts : List Time), ts.Pairwise (fun a b => r a < r b) →
      (∀ a ∈ ts, ∀ b ∈ ts, b.Sub a = saturate (r b - r a)) →
      ∀ (i j : Nat) (a b : Time), i < j → ts[i]? = some a → ts[j]? = some b →
        (allowAll l ts)[i]? = some true → (allowAll l ts)[j]? = some true →
        a.IsZero = false → l.minInterval ≤ r b - r a ∧ l.minInterval ≤ maxDuration := by
  intro ts
  induction ts generalizing l with
  | nil => intro _ _ i j a b _ ha; simp at ha
  | cons t rest ih =>
    intro hs hsub i j a b hij ha hb hi hj hne
    rw [List.pairwise_cons] at hs
    obtain ⟨j, rfl⟩ : ∃ k, j = k + 1 := ⟨j - 1, by omega⟩
    simp [allowAll] at hb hj
    cases i with
    | zero =>
      simp [allowAll] at ha hi
      subst ha
      rw [Allow_snd_of_true l t hi] at hj
      have := granted_after_last r { l with last := t } hne rest hs.2 hs.1
        (fun x hx => hsub t (by simp) x (by simp [hx])) j b hb hj
      simpa using this
    | succ i =>
      simp [allowAll] at ha hi
      have := ih (l.Allow t).2 hs.2
        (fun x hx y hy => hsub x (by simp [hx]) y (by simp [hy])) i j a b (by omega) ha hb hi hj hne
      rwa [Allow_minInterval] at this

/-- Claim C1 as stated fails in two ways. At the zero time: on a fresh limiter
with an interval of 600 seconds, a call at the zero `time.Time` and a call one
nanosecond later are both granted. On the wall clock: with an interval of one
second, two `time.Now()` values whose monotonic readings are one second apart
and whose wall clock instants are 999999995 ns apart are both granted. -/
theorem allowAll_not_spaced :
    (List.Pairwise (fun a b : Time => a.Before b = true) [⟨0, none⟩, ⟨1, none⟩]
      ∧ allowAll (NewIntervalLimiter (600 * Second)) [⟨0, none⟩, ⟨1, none⟩] = [true, true]
      ∧ (⟨1, none⟩ : Time).Sub ⟨0, none⟩ = 1
      ∧ ¬ ((NewIntervalLimiter (600 * Second)).minInterval ≤ (⟨1, none⟩ : Time).Sub ⟨0, none⟩))
    ∧ (List.Pairwise (fun a b : Time => a.Before b = true)
          [⟨63900000000000000000, some 1000000000⟩, ⟨63900000000999999995, some 2000000000⟩]
      ∧ allowAll (NewIntervalLimiter (1 * Second))
          [⟨63900000000000000000, some 1000000000⟩, ⟨63900000000999999995, some 2000000000⟩]
          = [true, true]
      ∧ ¬ ((NewIntervalLimiter (1 * Second)).minInterval
            ≤ (63900000000999999995 : Int) - 63900000000000000000)) := by
  decide

/-- Claim C1, amended: on a freshly constructed limiter, for calls at instants
that all carry a monotonic reading (as `time.Now()` values do) or all carry
none, each before the later ones by Go's `Time.Before`, two calls that both
return true, the earlier of them not at the zero `time.Time`, are at least the
configured interval apart by Go's `Time.Sub`, that is, on the monotonic clock
in the first case and on the wall clock in the second. -/
theorem allowAll_granted_spaced (minInterval : Int) (ts : List Time)
    (hclock : (∀ t ∈ ts, t.mono ≠ none) ∨ (∀ t ∈ ts, t.mono = none))
    (hinc : ts.Pairwise (fun a b => a.Before b = true))
    (i j : Nat) (a b : Time) (hij : i < j) (ha : ts[i]? = some a) (hb : ts[j]? = some b)
    (hi : (allowAll (NewIntervalLimiter minInterval) ts)[i]? = some true)
    (hj : (allowAll (NewIntervalLimiter minInterval) ts)[j]? = some true)
    (hne : a.IsZero = false) :
    minInterval ≤ b.Sub a
    ∧ (∀ ma mb : Int, a.mono = some ma → b.mono = some mb → minInterval ≤ mb - ma)
    ∧ (a.mono = none → b.mono = none → minInterval ≤ b.wall - a.wall) := by
  have hamem := List.getElem?_mem ha
  have hbmem := List.getElem?_mem hb
  rcases hclock with hc | hc
  · -- every instant carries a monotonic reading
    have key := granted_spaced (fun t => t.mono.getD 0) (NewIntervalLimiter minInterval) ts
      (hinc.imp_of_mem (fun {x y} hx hy hxy => by
        obtain ⟨mx, hmx⟩ := Option.ne_none_iff_exists'.mp (hc x hx)
        obtain ⟨my, hmy⟩ := Option.ne_none_iff_exists'.mp (hc y hy)
        simpa [Time.Before, hmx, hmy] using hxy))
      (fun x hx y hy => by
        obtain ⟨mx, hmx⟩ := Option.ne_none_iff_exists'.mp (hc x hx)
        obtain ⟨my, hmy⟩ := Option.ne_none_iff_exists'.mp (hc y hy)
        simp [Time.Sub, hmx, hmy])
      i j a b hij ha hb hi hj hne
    obtain ⟨ma, hma⟩ := Option.ne_none_iff_exists'.mp (hc a hamem)
    obtain ⟨mb, hmb⟩ := Option.ne_none_iff_exists'.mp (hc b hbmem)
    simp only [hma, hmb, Option.getD_some] at key
    have hk : (NewIntervalLimiter minInterval).minInterval = minInterval := rfl
    rw [hk] at key
    refine ⟨?_, ?_, ?_⟩
    · have : b.Sub a = saturate (mb - ma) := by simp [Time.Sub, hma, hmb]
      rw [this]
      exact le_saturate _ _ key.1 key.2
    · intro ma' mb' h1 h2
      rw [hma] at h1; rw [hmb] at h2
      cases h1; cases h2
      exact key.1
    · intro h1
      rw [hma] at h1
      cases h1
  · -- no instant carries a monotonic reading
    have key := granted_spaced (fun t => t.wall) (NewIntervalLimiter minInterval) ts
      (hinc.imp_of_mem (fun {x y} hx hy hxy => by
        simpa [Time.Before, hc x hx] using hxy))
      (fun x hx y hy => Sub_wall y x (Or.inl (hc y hy)))
      i j a b hij ha hb hi hj hne
    have hk : (NewIntervalLimiter minInterval).minInterval = minInterval := rfl
    rw [hk] at key
    simp only at key
    refine ⟨?_, ?_, ?_⟩
    · rw [Sub_wall b a (Or.inl (hc b hbmem))]
      exact le_saturate _ _ key.1 key.2
    · intro ma' mb' h1
      rw [hc a hamem] at h1
      cases h1
    · intro _ _
      exact key.1

/-- Claim C1, amended, at four `time.Now()` values, the later ones 5 s, 600 s
and 900 s after the first, with an interval of 600 s: the first and third are
granted and 600 s apart. -/
theorem allowAll_granted_spaced_witness :
    allowAll (NewIntervalLimiter (600 * Second))
        [⟨63900000000000000000, some 1000000000⟩, ⟨63900000005000000000, some 6000000000⟩,
          ⟨63900000600000000000, some 601000000000⟩,
          ⟨63900000900000000000, some 901000000000⟩] = [true, false, true, false]
    ∧ 600 * Second ≤ (⟨63900000600000000000, some 601000000000⟩ : Time).Sub
        ⟨63900000000000000000, some 1000000000⟩ :=
  ⟨by decide,
    (allowAll_granted_spaced (600 * Second)
      [⟨63900000000000000000, some 1000000000⟩, ⟨63900000005000000000, some 6000000000⟩,
        ⟨63900000600000000000, some 601000000000⟩,
        ⟨63900000900000000000, some 901000000000⟩] (Or.inl (by decide)) (by decide) 0 2
      ⟨63900000000000000000, some 1000000000⟩ ⟨63900000600000000000, some 601000000000⟩
      (by decide) (by decide) (by decide) (by decide) (by decide) (by decide)).1⟩

end ratelimit

/-! ## Dedup store -/

namespace storage

theorem WasProcessed_MarkProcessed_self (s : InMemoryStore) (c m : Int) :
    (s.MarkProcessed c m).WasProcessed c m = true := by
  unfold InMemoryStore.MarkProcessed InMemoryStore.WasProcessed
  cases h : s.data.lookup c <;> simp [Finmap.lookup_insert]

/-- A key that is present stays present under `MarkProcessed` of any pair. -/
theorem WasProcessed_MarkProcessed_mono (s : InMemoryStore) (c m c' m' : Int)
    (h : s.WasProcessed c m = true) : (s.MarkProcessed c' m').WasProcessed c m = true := by
  unfold InMemoryStore.WasProcessed at h
  cases hl : s.data.lookup c with
  | none => simp [hl] at h
  | some ms =>
    simp [hl] at h
    by_cases hc : c = c'
    · subst hc
      simp [InMemoryStore.MarkProcessed, InMemoryStore.WasProcessed, hl, Finmap.lookup_insert, h]
    · unfold InMemoryStore.MarkProcessed InMemoryStore.WasProcessed
      cases hl' : s.data.lookup c' <;>
        simp [Finmap.lookup_insert_of_ne _ hc, hl, h]

theorem WasProcessed_markAll (pairs : List (Int × Int)) :
    ∀ (s : InMemoryStore) (c m : Int), s.WasProcessed c m = true →
      (markAll s pairs).WasProcessed c m = true := by
  induction pairs with
  | nil => intro s c m h; simpa [markAll] using h
  | cons p rest ih =>
    intro s c m h
    have := ih (s.MarkProcessed p.1 p.2) c m (WasProcessed_MarkProcessed_mono s c m p.1 p.2 h)
    simpa [markAll] using this

/-- Marking a pair that is present changes nothing. -/
theorem MarkProcessed_of_WasProcessed (s : InMemoryStore) (c m : Int)
    (h : s.WasProcessed c m = true) : s.MarkProcessed c m = s := by
  unfold InMemoryStore.WasProcessed at h
  cases hl : s.data.lookup c with
  | none => simp [hl] at h
  | some ms =>
    simp [hl] at h
    cases s with
    | mk data =>
      simp only [InMemoryStore.MarkProcessed]
      simp only at hl
      rw [hl]
      simp only [InMemoryStore.mk.injEq]
      apply Finmap.ext_lookup
      intro x
      by_cases hx : x = c
      · subst hx
        simp [Finmap.lookup_insert, hl, Finset.insert_eq_of_mem h]
      · simp [Finmap.lookup_insert_of_ne _ hx]

/-- Claim C2: from any store, once `MarkProcessed(chatID, messageID)` has been
called, `WasProcessed(chatID, messageID)` is true after every later sequence
of `MarkProcessed` calls on any pairs, and a further
`MarkProcessed(chatID, messageID)`, directly after the first (`later = []`) or
after any such sequence, leaves the store as it is. -/
theorem MarkProcessed_persistent_idempotent (s : InMemoryStore) (chatID messageID : Int)
    (later : List (Int × Int)) :
    (markAll (s.MarkProcessed chatID messageID) later).WasProcessed chatID messageID = true
    ∧ (markAll (s.MarkProcessed chatID messageID) later).MarkProcessed chatID messageID
        = markAll (s.MarkProcessed chatID messageID) later
    ∧ (s.MarkProcessed chatID messageID).MarkProcessed chatID messageID
        = s.MarkProcessed chatID messageID := by
  have h := WasProcessed_markAll later _ chatID messageID
    (WasProcessed_MarkProcessed_self s chatID messageID)
  exact ⟨h, MarkProcessed_of_WasProcessed _ _ _ h,
    MarkProcessed_of_WasProcessed _ _ _ (WasProcessed_MarkProcessed_self s chatID messageID)⟩

end storage

/-! ## The helpers `contains` and `containsMarker` -/

/-- A list occurs inside another exactly when it is one of its windows. -/
theorem window_of_mem_iff {α : Type} (sub s : List α) :
    sub <:+: s ↔ ∃ k, k + sub.length ≤ s.length ∧ (s.drop k).take sub.length = sub := by
  constructor
  · rintro ⟨p, q, rfl⟩
    refine ⟨p.length, by simp, ?_⟩
    simp [List.append_assoc]
  · rintro ⟨k, _, hk⟩
    refine ⟨s.take k, (s.drop k).drop sub.length, ?_⟩
    have h1 : s.take k ++ sub ++ (s.drop k).drop sub.length
        = s.take k ++ ((s.drop k).take sub.length ++ (s.drop k).drop sub.length) := by
      rw [hk, List.append_assoc]
    rw [h1, List.take_append_drop, List.take_append_drop]

namespace bot

open gotime ratelimit storage tgbotapi

theorem slice_eq (s : GoString) (i n : Nat) (h : i + n ≤ s.length) :
    slice s i (i + n) = some ((s.drop i).take n) := by
  unfold slice
  rw [if_pos ⟨by omega, h⟩]
  simp

/-- The loop entered at `i` does not panic, and answers whether some window at
`k ≥ i` equals `substr`. -/
theorem containsFrom_spec (s substr : GoString) :
    ∀ (d i : Nat), s.length + 1 - i = d →
      ∃ b, containsFrom s substr i = some b ∧ (b = true ↔ ∃ k, i ≤ k ∧ k + substr.length ≤ s.length
        ∧ (s.drop k).take substr.length = substr) := by
  intro d
  induction d with
  | zero =>
    intro i hd
    refine ⟨false, ?_, ?_⟩
    · rw [containsFrom, if_neg (by omega)]
    · simp only [Bool.false_eq_true, false_iff]
      rintro ⟨k, h1, h2, _⟩
      omega
  | succ d ih =>
    intro i hd
    by_cases hle : i + substr.length ≤ s.length
    · by_cases hw : (s.drop i).take substr.length = substr
      · refine ⟨true, ?_, ?_⟩
        · rw [containsFrom, if_pos hle, slice_eq s i substr.length hle]
          simp [hw]
        · simp only [true_iff]
          exact ⟨i, le_refl i, hle, hw⟩
      · obtain ⟨b, hb, hiff⟩ := ih (i + 1) (by omega)
        refine ⟨b, ?_, ?_⟩
        · rw [containsFrom, if_pos hle, slice_eq s i substr.length hle]
          simp [hw, hb]
        · rw [hiff]
          constructor
          · rintro ⟨k, h1, h2, h3⟩
            exact ⟨k, by omega, h2, h3⟩
          · rintro ⟨k, h1, h2, h3⟩
            have : k ≠ i := by rintro rfl; exact hw h3
            exact ⟨k, by omega, h2, h3⟩
    · refine ⟨false, ?_, ?_⟩
      · rw [containsFrom, if_neg hle]
      · simp only [Bool.false_eq_true, false_iff]
        rintro ⟨k, h1, h2, _⟩
        omega

theorem contains_eq (s substr : GoString) :
    contains s substr = some (decide (substr <:+: s)) := by
  obtain ⟨b, hb, hiff⟩ := containsFrom_spec s substr _ 0 rfl
  unfold contains
  rw [hb]
  congr 1
  rw [Bool.eq_iff_iff, hiff, decide_eq_true_iff, window_of_mem_iff]
  simp

theorem containsMarker_eq_contains (text : GoString) :
    containsMarker text = contains text processedMarker := by
  unfold containsMarker
  split_ifs with h1 h2
  · rw [contains_eq, h2]; simp
  · rfl
  · rw [contains_eq]
    simp only [Option.some.injEq]
    symm
    rw [decide_eq_false_iff_not]
    intro hin
    exact h1 hin.length_le

theorem containsMarker_eq (text : GoString) :
    containsMarker text = some (decide (processedMarker <:+: text)) := by
  rw [containsMarker_eq_contains, contains_eq]

/-- Claim C10: `contains(s, substr)` never panics on a slice bound and is true
exactly when `substr` occurs as a contiguous run of bytes of `s`, so it is
true for the empty `substr`; `containsMarker(text)` equals
`contains(text, processedMarker)`, that is, it is true exactly when the bytes
of "[spellchecked]" occur somewhere in `text`. -/
theorem contains_iff_occurs :
    (∀ s substr : GoString, contains s substr = some (decide (substr <:+: s)))
    ∧ (∀ s : GoString, contains s [] = some true)
    ∧ (∀ text : GoString, containsMarker text = contains text processedMarker)
    ∧ (∀ text : GoString,
        containsMarker text = some (decide (ofString "[spellchecked]" <:+: text))) := by
  refine ⟨contains_eq, ?_, containsMarker_eq_contains, containsMarker_eq⟩
  intro s
  rw [contains_eq]
  simp

end bot

/-! ## The pipeline: `handleUpdate` and `processMessage` -/

namespace bot

open gotime ratelimit storage tgbotapi

theorem notifyRateLimited_eq (chatID : Int) (sendErr : Option GoError) :
    notifyRateLimited chatID sendErr = [Effect.Send chatID rateLimitedText] := by
  cases sendErr <;> rfl

theorem resolvedText_ne_nil (msg : Message) (h : ¬(msg.Text = [] ∧ msg.Caption = [])) :
    resolvedText msg ≠ [] := by
  unfold resolvedText
  split_ifs with h1
  · exact fun h2 => h ⟨h1, h2⟩
  · exact h1

theorem fromBot_eq_false (msg : Message) (hbot : ∀ u, msg.From = some u → u.IsBot = false) :
    fromBot msg = false := by
  unfold fromBot
  cases hf : msg.From with
  | none => rfl
  | some u => exact hbot u hf

/-- An update that fails one of the first three checks is dropped before any
call is made. -/
theorem handleUpdate_skip (b : Bot) (now : Time) (notifyErr : Option GoError) (update : Update)
    (h : update.ChannelPost = none ∨ ∃ msg, update.ChannelPost = some msg ∧
      (msg.Chat = none ∨ (∃ chat, msg.Chat = some chat ∧ chat.ID ≠ b.cfg.ChannelID)
        ∨ (∃ u, msg.From = some u ∧ u.IsBot = true) ∨ (msg.Text = [] ∧ msg.Caption = []))) :
    handleUpdate b now notifyErr update = some ⟨b, [], none⟩ := by
  unfold handleUpdate
  rcases h with h | ⟨msg, hm, h⟩
  · simp only [h]
  · simp only [hm]
    cases hc : msg.Chat with
    | none => rfl
    | some chat =>
      simp only
      by_cases hid : chat.ID ≠ b.cfg.ChannelID
      · rw [if_pos hid]
      · rw [if_neg hid]
        by_cases hbot : fromBot msg = true
        · rw [if_pos hbot]
        · rw [if_neg hbot]
          rcases h with h | ⟨chat', hc', hne⟩ | ⟨u, hu, hb⟩ | h
          · simp [hc] at h
          · rw [hc] at hc'; cases hc'; exact absurd hne hid
          · exact absurd (by simp [fromBot, hu, hb]) hbot
          · rw [if_pos h]

/-- An update that passes the first three checks and whose pair is in the
store is dropped after the store query. -/
theorem handleUpdate_seen (b : Bot) (now : Time) (notifyErr : Option GoError) (update : Update)
    (msg : Message) (chat : Chat) (hm : update.ChannelPost = some msg) (hc : msg.Chat = some chat)
    (hid : chat.ID = b.cfg.ChannelID) (hbot : ∀ u, msg.From = some u → u.IsBot = false)
    (htxt : ¬(msg.Text = [] ∧ msg.Caption = []))
    (hs : b.store.WasProcessed chat.ID msg.MessageID = true) :
    handleUpdate b now notifyErr update
      = some ⟨b, [.WasProcessed chat.ID msg.MessageID], none⟩ := by
  unfold handleUpdate
  simp only [hm, hc]
  rw [if_neg (not_not.mpr hid), fromBot_eq_false msg hbot, if_neg (by simp), if_neg htxt,
    if_pos hs]

/-- An update that passes the first four checks: the three ways the rest of
`handleUpdate` can go. -/
theorem handleUpdate_fresh (b : Bot) (now : Time) (notifyErr : Option GoError) (update : Update)
    (msg : Message) (chat : Chat) (hm : update.ChannelPost = some msg) (hc : msg.Chat = some chat)
    (hid : chat.ID = b.cfg.ChannelID) (hbot : ∀ u, msg.From = some u → u.IsBot = false)
    (htxt : ¬(msg.Text = [] ∧ msg.Caption = []))
    (hs : b.store.WasProcessed chat.ID msg.MessageID = false) :
    handleUpdate b now notifyErr update =
      if processedMarker <:+: resolvedText msg then
        some ⟨{ b with store := b.store.MarkProcessed chat.ID msg.MessageID },
          [.WasProcessed chat.ID msg.MessageID, .MarkProcessed chat.ID msg.MessageID], none⟩
      else if (b.limiter.Allow now).1 = false then
        some ⟨{ b with store := b.store.MarkProcessed chat.ID msg.MessageID },
          [.WasProcessed chat.ID msg.MessageID, .Allow now, .Send chat.ID rateLimitedText,
            .MarkProcessed chat.ID msg.MessageID], none⟩
      else
        some ⟨{ b with limiter := { b.limiter with last := now } },
          [.WasProcessed chat.ID msg.MessageID, .Allow now],
          some ⟨chat.ID, msg.MessageID, resolvedText msg⟩⟩ := by
  unfold handleUpdate
  simp only [hm, hc]
  rw [if_neg (not_not.mpr hid), fromBot_eq_false msg hbot, if_neg (by simp), if_neg htxt,
    if_neg (by simp [hs]), if_neg (resolvedText_ne_nil msg htxt), containsMarker_eq,
    notifyRateLimited_eq]
  by_cases hmk : processedMarker <:+: resolvedText msg
  · simp only [hmk, decide_True, if_true]
  · simp only [hmk, decide_False, if_false]
    cases ha : (b.limiter.Allow now).1 with
    | false => simp [Allow_snd_of_false _ _ ha]
    | true => simp [Allow_snd_of_true _ _ ha]

theorem processMessage_failed (b : Bot) (chatID messageID : Int) (text : GoString) (r : Replies)
    (err : GoError) (h : r.correctErr = some err) :
    processMessage b chatID messageID text r = (b, [.CorrectText text]) := by
  unfold processMessage
  rw [h]

theorem processMessage_corrected (b : Bot) (chatID messageID : Int) (text : GoString)
    (r : Replies) (h : r.correctErr = none) :
    processMessage b chatID messageID text r =
      (if r.sendErr.isNone then { b with store := b.store.MarkProcessed chatID messageID } else b,
        [.CorrectText text, .DeleteMessage chatID messageID,
          .Send chatID (r.corrected ++ ofString "\n" ++ processedMarker)]
        ++ if r.sendErr.isNone then [.MarkProcessed chatID messageID] else []) := by
  unfold processMessage
  rw [h]
  cases r.deleteErr <;> cases r.sendErr <;> simp

theorem posted_has_marker (c : GoString) :
    ofString "\n[spellchecked]" <:+ c ++ ofString "\n" ++ processedMarker
    ∧ containsMarker (c ++ ofString "\n" ++ processedMarker) = some true := by
  constructor
  · refine ⟨c, ?_⟩
    rw [List.append_assoc]
    congr 1
  · rw [containsMarker_eq]
    simp only [Option.some.injEq, decide_eq_true_eq]
    exact ⟨c ++ ofString "\n", [], by simp⟩

/-- Claim C5: when the `CorrectText` call of `processMessage` returns an error
(a deadline exceeded is one), the run makes that one call and nothing else:
no delete request, no send, and the bot, its store included, is as before, so
the pair is as marked or unmarked as it was. -/
theorem processMessage_correction_failure (b : Bot) (chatID messageID : Int) (text : GoString)
    (r : Replies) (err : GoError) (h : r.correctErr = some err) :
    (processMessage b chatID messageID text r).2 = [.CorrectText text]
    ∧ deleteCalls (processMessage b chatID messageID text r).2 = 0
    ∧ sendCalls (processMessage b chatID messageID text r).2 = 0
    ∧ (processMessage b chatID messageID text r).1 = b
    ∧ (processMessage b chatID messageID text r).1.store.WasProcessed chatID messageID
        = b.store.WasProcessed chatID messageID := by
  rw [processMessage_failed b chatID messageID text r err h]
  simp [deleteCalls, sendCalls]

/-- Claim C6: when the correction succeeds with text `r.corrected`, the run
makes, in this order, the correction call, one delete request for
`(chatID, messageID)`, one send of `r.corrected + "\n" + processedMarker` to
`chatID`, whatever the delete returned, and then, exactly when the send
succeeded, `MarkProcessed(chatID, messageID)`, which is the only change to the
bot. After a successful send the pair is in the store; after a failed send
the store is the one the run started with. -/
theorem processMessage_success_order (b : Bot) (chatID messageID : Int) (text : GoString)
    (r : Replies) (h : r.correctErr = none) :
    (processMessage b chatID messageID text r).2 =
        [.CorrectText text, .DeleteMessage chatID messageID,
          .Send chatID (r.corrected ++ ofString "\n" ++ processedMarker)]
        ++ (if r.sendErr = none then [.MarkProcessed chatID messageID] else [])
    ∧ deleteCalls (processMessage b chatID messageID text r).2 = 1
    ∧ sendCalls (processMessage b chatID messageID text r).2 = 1
    ∧ (processMessage b chatID messageID text r).1 =
        (if r.sendErr = none then { b with store := b.store.MarkProcessed chatID messageID }
          else b)
    ∧ (r.sendErr = none →
        (processMessage b chatID messageID text r).1.store.WasProcessed chatID messageID = true)
    ∧ (r.sendErr ≠ none → (processMessage b chatID messageID text r).1.store = b.store) := by
  have hmark : ∀ (s : InMemoryStore) (c m : Int), (s.MarkProcessed c m).WasProcessed c m = true := by
    intro s c m
    unfold InMemoryStore.MarkProcessed InMemoryStore.WasProcessed
    cases h : s.data.lookup c <;> simp [Finmap.lookup_insert]
  rw [processMessage_corrected b chatID messageID text r h]
  cases r.sendErr <;> simp [deleteCalls, sendCalls, hmark]

end bot

namespace bot

open gotime ratelimit storage tgbotapi

/-- Claim C4, the marker round trip: the only text a successful
`processMessage` run sends is `corrected + "\n" + processedMarker`; every such
text ends with "\n[spellchecked]" and satisfies `containsMarker`; and an update
that passes the checks before the marker test and whose resolved text satisfies
`containsMarker` makes `handleUpdate` query the store and mark the pair, with
no correction call, no other call and no goroutine started; the pair is in
the store afterwards. -/
theorem marker_round_trip :
    (∀ (b : Bot) (chatID messageID : Int) (text : GoString) (r : Replies), r.correctErr = none →
      (processMessage b chatID messageID text r).2.filter
          (fun e => match e with | .Send _ _ => true | _ => false)
        = [.Send chatID (r.corrected ++ ofString "\n" ++ processedMarker)])
    ∧ (∀ c : GoString,
        ofString "\n[spellchecked]" <:+ c ++ ofString "\n" ++ processedMarker
        ∧ containsMarker (c ++ ofString "\n" ++ processedMarker) = some true)
    ∧ (∀ (b : Bot) (now : Time) (notifyErr : Option GoError) (update : Update)
        (msg : Message) (chat : Chat),
        update.ChannelPost = some msg → msg.Chat = some chat → chat.ID = b.cfg.ChannelID →
        (∀ u, msg.From = some u → u.IsBot = false) → ¬(msg.Text = [] ∧ msg.Caption = []) →
        b.store.WasProcessed chat.ID msg.MessageID = false →
        containsMarker (resolvedText msg) = some true →
        ∃ r, handleUpdate b now notifyErr update = some r
          ∧ r = ⟨{ b with store := b.store.MarkProcessed chat.ID msg.MessageID },
              [.WasProcessed chat.ID msg.MessageID, .MarkProcessed chat.ID msg.MessageID],
              none⟩
          ∧ correctCalls r.effects = 0
          ∧ r.bot.store.WasProcessed chat.ID msg.MessageID = true) := by
  have hmark : ∀ (s : InMemoryStore) (c m : Int), (s.MarkProcessed c m).WasProcessed c m = true := by
    intro s c m
    unfold InMemoryStore.MarkProcessed InMemoryStore.WasProcessed
    cases h : s.data.lookup c <;> simp [Finmap.lookup_insert]
  refine ⟨?_, posted_has_marker, ?_⟩
  · intro b chatID messageID text r h
    rw [processMessage_corrected b chatID messageID text r h]
    cases r.sendErr <;> simp [List.filter]
  · intro b now notifyErr update msg chat hm hc hid hbot htxt hs hmk
    rw [containsMarker_eq] at hmk
    simp only [Option.some.injEq, decide_eq_true_eq] at hmk
    rw [handleUpdate_fresh b now notifyErr update msg chat hm hc hid hbot htxt hs, if_pos hmk]
    exact ⟨_, rfl, rfl, rfl, hmark _ _ _⟩

/-- Claim C7: for an update that passes checks 1 to 5 (post in the configured
chat, author no bot, text or caption non-empty, pair not in the store, no
marker), when `limiter.Allow(now)` returns false, `handleUpdate` makes exactly
these calls, in order: the store query, `Allow(now)`, one send of the
rate-limit notice to the chat, `MarkProcessed` of the pair; there is no
correction call and no delete, no goroutine is started, the limiter is
unchanged, and the pair is in the store afterwards. -/
theorem handleUpdate_rate_limited (b : Bot) (now : Time) (notifyErr : Option GoError)
    (update : Update) (msg : Message) (chat : Chat)
    (hm : update.ChannelPost = some msg) (hc : msg.Chat = some chat)
    (hid : chat.ID = b.cfg.ChannelID) (hbot : ∀ u, msg.From = some u → u.IsBot = false)
    (htxt : ¬(msg.Text = [] ∧ msg.Caption = []))
    (hs : b.store.WasProcessed chat.ID msg.MessageID = false)
    (hmk : containsMarker (resolvedText msg) = some false)
    (hlim : (b.limiter.Allow now).1 = false) :
    ∃ r, handleUpdate b now notifyErr update = some r
      ∧ r = ⟨{ b with store := b.store.MarkProcessed chat.ID msg.MessageID },
          [.WasProcessed chat.ID msg.MessageID, .Allow now, .Send chat.ID rateLimitedText,
            .MarkProcessed chat.ID msg.MessageID],
          none⟩
      ∧ sendCalls r.effects = 1 ∧ correctCalls r.effects = 0 ∧ deleteCalls r.effects = 0
      ∧ r.bot.limiter = b.limiter
      ∧ r.bot.store.WasProcessed chat.ID msg.MessageID = true := by
  have hmark : ∀ (s : InMemoryStore) (c m : Int), (s.MarkProcessed c m).WasProcessed c m = true := by
    intro s c m
    unfold InMemoryStore.MarkProcessed InMemoryStore.WasProcessed
    cases h : s.data.lookup c <;> simp [Finmap.lookup_insert]
  rw [containsMarker_eq] at hmk
  simp only [Option.some.injEq, decide_eq_false_iff_not] at hmk
  rw [handleUpdate_fresh b now notifyErr update msg chat hm hc hid hbot htxt hs, if_neg hmk,
    if_pos hlim]
  exact ⟨_, rfl, rfl, rfl, rfl, rfl, rfl, hmark _ _ _⟩

/-- Claim C8: an update with no channel post, or a post with no chat or a chat
other than the configured one, or an author flagged as a bot, or empty text
and caption, or a pair that is in the store, makes `handleUpdate` return with
the bot (store and limiter) unchanged, no goroutine started, no correction
call, no delete and no send; the only call it can have made is the store
query, and for a post by a bot it made none. -/
theorem handleUpdate_drop_no_effects (b : Bot) (now : Time) (notifyErr : Option GoError)
    (update : Update)
    (h : update.ChannelPost = none ∨ ∃ msg, update.ChannelPost = some msg ∧
      (msg.Chat = none
        ∨ (∃ chat, msg.Chat = some chat ∧ chat.ID ≠ b.cfg.ChannelID)
        ∨ (∃ u, msg.From = some u ∧ u.IsBot = true)
        ∨ (msg.Text = [] ∧ msg.Caption = [])
        ∨ (∃ chat, msg.Chat = some chat ∧ b.store.WasProcessed chat.ID msg.MessageID = true))) :
    ∃ r, handleUpdate b now notifyErr update = some r
      ∧ r.bot = b ∧ r.spawned = none
      ∧ correctCalls r.effects = 0 ∧ deleteCalls r.effects = 0 ∧ sendCalls r.effects = 0
      ∧ (∀ e ∈ r.effects, ∃ c m, e = Effect.WasProcessed c m)
      ∧ ((∃ msg u, update.ChannelPost = some msg ∧ msg.From = some u ∧ u.IsBot = true) →
          r.effects = []) := by
  by_cases hskip : update.ChannelPost = none ∨ ∃ msg, update.ChannelPost = some msg ∧
      (msg.Chat = none ∨ (∃ chat, msg.Chat = some chat ∧ chat.ID ≠ b.cfg.ChannelID)
        ∨ (∃ u, msg.From = some u ∧ u.IsBot = true) ∨ (msg.Text = [] ∧ msg.Caption = []))
  · exact ⟨_, handleUpdate_skip b now notifyErr update hskip, rfl, rfl, rfl, rfl, rfl,
      by simp, fun _ => rfl⟩
  · rcases h with h | ⟨msg, hm, h | h | h | h | ⟨chat, hc, hs⟩⟩
    · exact absurd (Or.inl h) hskip
    · exact absurd (Or.inr ⟨msg, hm, Or.inl h⟩) hskip
    · exact absurd (Or.inr ⟨msg, hm, Or.inr (Or.inl h)⟩) hskip
    · exact absurd (Or.inr ⟨msg, hm, Or.inr (Or.inr (Or.inl h))⟩) hskip
    · exact absurd (Or.inr ⟨msg, hm, Or.inr (Or.inr (Or.inr h))⟩) hskip
    · have hid : chat.ID = b.cfg.ChannelID := by
        by_contra hne
        exact hskip (Or.inr ⟨msg, hm, Or.inr (Or.inl ⟨chat, hc, hne⟩)⟩)
      have hbot : ∀ u, msg.From = some u → u.IsBot = false := by
        intro u hu
        cases hb : u.IsBot with
        | false => rfl
        | true => exact absurd (Or.inr ⟨msg, hm, Or.inr (Or.inr (Or.inl ⟨u, hu, hb⟩))⟩) hskip
      have htxt : ¬(msg.Text = [] ∧ msg.Caption = []) := fun ht =>
        hskip (Or.inr ⟨msg, hm, Or.inr (Or.inr (Or.inr ht))⟩)
      refine ⟨_, handleUpdate_seen b now notifyErr update msg chat hm hc hid hbot htxt hs,
        rfl, rfl, rfl, rfl, rfl, ?_, ?_⟩
      · intro e he
        simp only [List.mem_singleton] at he
        exact ⟨_, _, he⟩
      · rintro ⟨msg', u, hm', hu, hb⟩
        rw [hm] at hm'
        cases hm'
        rw [hbot u hu] at hb
        cases hb

end bot

namespace bot

open gotime ratelimit storage tgbotapi

theorem deliver_skip (b : Bot) (update : Update) (d : Delivery)
    (h : update.ChannelPost = none ∨ ∃ msg, update.ChannelPost = some msg ∧
      (msg.Chat = none ∨ (∃ chat, msg.Chat = some chat ∧ chat.ID ≠ b.cfg.ChannelID)
        ∨ (∃ u, msg.From = some u ∧ u.IsBot = true) ∨ (msg.Text = [] ∧ msg.Caption = []))) :
    deliver b update d = some (b, []) := by
  unfold deliver
  rw [handleUpdate_skip b d.now d.notifyErr update h]

theorem deliver_seen (b : Bot) (update : Update) (d : Delivery)
    (msg : Message) (chat : Chat) (hm : update.ChannelPost = some msg) (hc : msg.Chat = some chat)
    (hid : chat.ID = b.cfg.ChannelID) (hbot : ∀ u, msg.From = some u → u.IsBot = false)
    (htxt : ¬(msg.Text = [] ∧ msg.Caption = []))
    (hs : b.store.WasProcessed chat.ID msg.MessageID = true) :
    deliver b update d = some (b, [.WasProcessed chat.ID msg.MessageID]) := by
  unfold deliver
  rw [handleUpdate_seen b d.now d.notifyErr update msg chat hm hc hid hbot htxt hs]

/-- A first delivery that gets past the store check and whose correction and
send succeed ends with the pair in the store, after at most one correction
call and at most one send. -/
theorem deliver_fresh (b : Bot) (update : Update) (d : Delivery)
    (msg : Message) (chat : Chat) (hm : update.ChannelPost = some msg) (hc : msg.Chat = some chat)
    (hid : chat.ID = b.cfg.ChannelID) (hbot : ∀ u, msg.From = some u → u.IsBot = false)
    (htxt : ¬(msg.Text = [] ∧ msg.Caption = []))
    (hs : b.store.WasProcessed chat.ID msg.MessageID = false)
    (hcorr : d.replies.correctErr = none) (hsend : d.replies.sendErr = none) :
    ∃ b₁ e₁, deliver b update d = some (b₁, e₁) ∧ b₁.cfg = b.cfg
      ∧ b₁.store.WasProcessed chat.ID msg.MessageID = true
      ∧ correctCalls e₁ ≤ 1 ∧ sendCalls e₁ ≤ 1 := by
  unfold deliver
  rw [handleUpdate_fresh b d.now d.notifyErr update msg chat hm hc hid hbot htxt hs]
  by_cases hmk : processedMarker <:+: resolvedText msg
  · rw [if_pos hmk]
    exact ⟨_, _, rfl, rfl, WasProcessed_MarkProcessed_self _ _ _, by simp [correctCalls],
      by simp [sendCalls]⟩
  · rw [if_neg hmk]
    by_cases hlim : (b.limiter.Allow d.now).1 = false
    · rw [if_pos hlim]
      exact ⟨_, _, rfl, rfl, WasProcessed_MarkProcessed_self _ _ _, by simp [correctCalls],
        by simp [sendCalls]⟩
    · rw [if_neg hlim]
      simp only [processMessage_corrected _ _ _ _ _ hcorr, hsend, Option.isNone_none, if_true]
      exact ⟨_, _, rfl, rfl, WasProcessed_MarkProcessed_self _ _ _, by simp [correctCalls],
        by simp [sendCalls]⟩

/-- When the correction and the send of the first delivery succeed and its
goroutine has returned before the second delivery, the two deliveries make at
most one correction call and at most one send in all. -/
theorem deliverTwice_le_one (b : Bot) (update : Update) (d₁ d₂ : Delivery)
    (hcorr : d₁.replies.correctErr = none) (hsend : d₁.replies.sendErr = none) :
    ∃ b₂ es, deliverTwice b update d₁ d₂ = some (b₂, es)
      ∧ correctCalls es ≤ 1 ∧ sendCalls es ≤ 1 := by
  by_cases hskip : update.ChannelPost = none ∨ ∃ msg, update.ChannelPost = some msg ∧
      (msg.Chat = none ∨ (∃ chat, msg.Chat = some chat ∧ chat.ID ≠ b.cfg.ChannelID)
        ∨ (∃ u, msg.From = some u ∧ u.IsBot = true) ∨ (msg.Text = [] ∧ msg.Caption = []))
  · refine ⟨b, [], ?_, by simp [correctCalls], by simp [sendCalls]⟩
    unfold deliverTwice
    rw [deliver_skip b update d₁ hskip]
    simp only
    rw [deliver_skip b update d₂ hskip]
    rfl
  · cases hm : update.ChannelPost with
    | none => exact absurd (Or.inl hm) hskip
    | some msg =>
      cases hc : msg.Chat with
      | none => exact absurd (Or.inr ⟨msg, hm, Or.inl hc⟩) hskip
      | some chat =>
        have hid : chat.ID = b.cfg.ChannelID := by
          by_contra hne
          exact hskip (Or.inr ⟨msg, hm, Or.inr (Or.inl ⟨chat, hc, hne⟩)⟩)
        have hbot : ∀ u, msg.From = some u → u.IsBot = false := by
          intro u hu
          cases hb : u.IsBot with
          | false => rfl
          | true => exact absurd (Or.inr ⟨msg, hm, Or.inr (Or.inr (Or.inl ⟨u, hu, hb⟩))⟩) hskip
        have htxt : ¬(msg.Text = [] ∧ msg.Caption = []) := fun ht =>
          hskip (Or.inr ⟨msg, hm, Or.inr (Or.inr (Or.inr ht))⟩)
        cases hs : b.store.WasProcessed chat.ID msg.MessageID with
        | true =>
          refine ⟨b, [.WasProcessed chat.ID msg.MessageID] ++ [.WasProcessed chat.ID msg.MessageID],
            ?_, by simp [correctCalls], by simp [sendCalls]⟩
          unfold deliverTwice
          rw [deliver_seen b update d₁ msg chat hm hc hid hbot htxt hs]
          simp only
          rw [deliver_seen b update d₂ msg chat hm hc hid hbot htxt hs]
        | false =>
          obtain ⟨b₁, e₁, hd, hcfg, hmarked, h1, h2⟩ :=
            deliver_fresh b update d₁ msg chat hm hc hid hbot htxt hs hcorr hsend
          refine ⟨b₁, e₁ ++ [.WasProcessed chat.ID msg.MessageID], ?_, ?_, ?_⟩
          · unfold deliverTwice
            rw [hd]
            simp only
            rw [deliver_seen b₁ update d₂ msg chat hm hc (by rw [hcfg]; exact hid) hbot htxt
              hmarked]
          · simpa [correctCalls] using h1
          · simpa [sendCalls] using h2

theorem processMessage_calls_le (b : Bot) (chatID messageID : Int) (text : GoString)
    (r : Replies) : (processMessage b chatID messageID text r).2.length ≤ 4 := by
  unfold processMessage
  cases r.correctErr <;> cases r.deleteErr <;> cases r.sendErr <;> simp

/-- The bot a `processMessage` run returns is the bot it started from after
the calls of the run, taken one by one. -/
theorem processMessage_fst (b : Bot) (chatID messageID : Int) (text : GoString) (r : Replies) :
    (processMessage b chatID messageID text r).1
      = (processMessage b chatID messageID text r).2.foldl Effect.onBot b := by
  unfold processMessage
  cases r.correctErr <;> cases r.deleteErr <;> cases r.sendErr <;> simp [Effect.onBot]

/-- Once the goroutine of the first update has returned, `handleTwice` is
`deliverTwice`. -/
theorem handleTwice_done (k : Nat) (hk : 4 ≤ k) (b : Bot) (update : Update) (d₁ d₂ : Delivery) :
    handleTwice k b update d₁ d₂ = deliverTwice b update d₁ d₂ := by
  unfold handleTwice deliverTwice deliver
  cases h1 : handleUpdate b d₁.now d₁.notifyErr update with
  | none => rfl
  | some h₁ =>
    rcases h₁ with ⟨b₁, e₁, _ | sp⟩
    · simp only [List.take_nil, List.drop_nil, List.foldl_nil, List.append_nil]
      cases h2 : handleUpdate b₁ d₂.now d₂.notifyErr update with
      | none => rfl
      | some h₂ =>
        rcases h₂ with ⟨b₂, e₂, _ | sp₂⟩ <;> simp [List.append_assoc]
    · have hlen := processMessage_calls_le b₁ sp.chatID sp.messageID sp.text d₁.replies
      simp only [List.take_of_length_le (le_trans hlen hk),
        List.drop_of_length_le (le_trans hlen hk), ← processMessage_fst, List.foldl_nil,
        List.append_nil]
      cases h2 : handleUpdate (processMessage b₁ sp.chatID sp.messageID sp.text d₁.replies).1
          d₂.now d₂.notifyErr update with
      | none => rfl
      | some h₂ =>
        rcases h₂ with ⟨b₂, e₂, _ | sp₂⟩ <;> simp [List.append_assoc]

/-- Claim C3, amended: when the goroutine started for the first delivery, if
any, has returned before the second delivery is handled (`4 ≤ k`: it makes at
most four calls) and its correction call and its send succeeded, handling the
same update twice makes at most one correction call and at most one send in
all, the rate-limit notice counted among the sends. -/
theorem handleTwice_at_most_once (k : Nat) (b : Bot) (update : Update) (d₁ d₂ : Delivery)
    (hk : 4 ≤ k)
    (hcorr : d₁.replies.correctErr = none) (hsend : d₁.replies.sendErr = none) :
    ∃ b₂ es, handleTwice k b update d₁ d₂ = some (b₂, es)
      ∧ correctCalls es ≤ 1 ∧ sendCalls es ≤ 1 := by
  rw [handleTwice_done k hk]
  exact deliverTwice_le_one b update d₁ d₂ hcorr hsend

end bot

/-! ## The pipeline on sample inputs -/

namespace bot

open gotime ratelimit storage tgbotapi

/-- The sample bot is the bot `New` returns for the sample configuration and a
new store. -/
theorem New_exampleConfig : New exampleConfig NewInMemoryStore none = .ok exampleBot := rfl

theorem examplePost_not_bot : ∀ u, examplePost.From = some u → u.IsBot = false := by
  intro u hu
  cases hu
  rfl

theorem markedPost_not_bot : ∀ u, markedPost.From = some u → u.IsBot = false := by
  intro u hu
  cases hu

theorem deliver_example_timeout :
    deliver exampleBot exampleUpdate deliveryTimeout
      = some (exampleBotAdmitted,
          [.WasProcessed (-1001234567890) 7, .Allow t₀,
            .CorrectText (ofString "Превет мир")]) := by
  unfold deliver
  rw [handleUpdate_fresh exampleBot _ _ exampleUpdate examplePost ⟨-1001234567890⟩ rfl rfl
    (by decide) examplePost_not_bot (by decide) (by decide)]
  decide

theorem deliver_example_send_fails :
    deliver exampleBot exampleUpdate deliverySendFails
      = some (exampleBotAdmitted,
          [.WasProcessed (-1001234567890) 7, .Allow t₀,
            .CorrectText (ofString "Превет мир"), .DeleteMessage (-1001234567890) 7,
            .Send (-1001234567890) (ofString "Привет, мир\n[spellchecked]")]) := by
  unfold deliver
  rw [handleUpdate_fresh exampleBot _ _ exampleUpdate examplePost ⟨-1001234567890⟩ rfl rfl
    (by decide) examplePost_not_bot (by decide) (by decide)]
  decide

theorem deliver_example_later :
    deliver exampleBotAdmitted exampleUpdate deliveryLater
      = some (exampleBotDone,
          [.WasProcessed (-1001234567890) 7, .Allow (t₀.Add (600 * Second)),
            .CorrectText (ofString "Превет мир"), .DeleteMessage (-1001234567890) 7,
            .Send (-1001234567890) (ofString "Привет, мир\n[spellchecked]"),
            .MarkProcessed (-1001234567890) 7]) := by
  unfold deliver
  rw [handleUpdate_fresh exampleBotAdmitted _ _ exampleUpdate examplePost ⟨-1001234567890⟩ rfl rfl
    (by decide) examplePost_not_bot (by decide) (by decide)]
  decide

/-- The update redelivered 600 seconds after a first delivery whose correction
call timed out: the whole sequence of calls. -/
theorem deliverTwice_example_timeout :
    deliverTwice exampleBot exampleUpdate deliveryTimeout deliveryLater
      = some (exampleBotDone,
          [.WasProcessed (-1001234567890) 7, .Allow t₀,
            .CorrectText (ofString "Превет мир"),
            .WasProcessed (-1001234567890) 7, .Allow (t₀.Add (600 * Second)),
            .CorrectText (ofString "Превет мир"), .DeleteMessage (-1001234567890) 7,
            .Send (-1001234567890) (ofString "Привет, мир\n[spellchecked]"),
            .MarkProcessed (-1001234567890) 7]) := by
  unfold deliverTwice
  rw [deliver_example_timeout]
  simp only
  rw [deliver_example_later]
  rfl

/-- The update redelivered 600 seconds after a first delivery whose send
failed: the whole sequence of calls. -/
theorem deliverTwice_example_send_fails :
    deliverTwice exampleBot exampleUpdate deliverySendFails deliveryLater
      = some (exampleBotDone,
          [.WasProcessed (-1001234567890) 7, .Allow t₀,
            .CorrectText (ofString "Превет мир"), .DeleteMessage (-1001234567890) 7,
            .Send (-1001234567890) (ofString "Привет, мир\n[spellchecked]"),
            .WasProcessed (-1001234567890) 7, .Allow (t₀.Add (600 * Second)),
            .CorrectText (ofString "Превет мир"), .DeleteMessage (-1001234567890) 7,
            .Send (-1001234567890) (ofString "Привет, мир\n[spellchecked]"),
            .MarkProcessed (-1001234567890) 7]) := by
  unfold deliverTwice
  rw [deliver_example_send_fails]
  simp only
  rw [deliver_example_later]
  rfl

theorem handleUpdate_example_first :
    handleUpdate exampleBot t₀ none exampleUpdate
      = some ⟨exampleBotAdmitted, [.WasProcessed (-1001234567890) 7, .Allow t₀],
          some ⟨-1001234567890, 7, ofString "Превет мир"⟩⟩ := by
  rw [handleUpdate_fresh exampleBot _ _ exampleUpdate examplePost ⟨-1001234567890⟩ rfl rfl
    (by decide) examplePost_not_bot (by decide) (by decide)]
  decide

set_option maxRecDepth 8192 in
theorem handleUpdate_example_soon :
    handleUpdate exampleBotAdmitted (t₀.Add (5 * Second)) none exampleUpdate
      = some ⟨{ exampleBotAdmitted with
                store := NewInMemoryStore.MarkProcessed (-1001234567890) 7 },
          [.WasProcessed (-1001234567890) 7, .Allow (t₀.Add (5 * Second)),
            .Send (-1001234567890) rateLimitedText, .MarkProcessed (-1001234567890) 7],
          none⟩ := by
  rw [handleUpdate_fresh exampleBotAdmitted _ _ exampleUpdate examplePost ⟨-1001234567890⟩ rfl rfl
    (by decide) examplePost_not_bot (by decide) (by decide)]
  decide

set_option maxRecDepth 8192 in
/-- The update handled again 5 seconds later, before the goroutine of the
first has made any call, every collaborator succeeding: the whole sequence of
calls. -/
theorem handleTwice_example_overlap :
    handleTwice 0 exampleBot exampleUpdate deliveryOk deliverySoon
      = some ({ exampleBotAdmitted with
                store := NewInMemoryStore.MarkProcessed (-1001234567890) 7 },
          [.WasProcessed (-1001234567890) 7, .Allow t₀,
            .WasProcessed (-1001234567890) 7, .Allow (t₀.Add (5 * Second)),
            .Send (-1001234567890) rateLimitedText, .MarkProcessed (-1001234567890) 7,
            .CorrectText (ofString "Превет мир"), .DeleteMessage (-1001234567890) 7,
            .Send (-1001234567890) (ofString "Привет, мир\n[spellchecked]"),
            .MarkProcessed (-1001234567890) 7]) := by
  unfold handleTwice
  have h1 : handleUpdate exampleBot deliveryOk.now deliveryOk.notifyErr exampleUpdate = _ :=
    handleUpdate_example_first
  rw [h1]
  simp only [List.take_zero, List.foldl_nil, List.drop_zero]
  have h2 : handleUpdate exampleBotAdmitted deliverySoon.now deliverySoon.notifyErr
      exampleUpdate = _ := handleUpdate_example_soon
  rw [h2]
  decide

/-- Claim C3 as stated fails. With the goroutine of the first delivery returned
before the second delivery 600 seconds later: two correction calls when the
first correction call timed out, and two correction calls and two sends when
the first send failed. With the second delivery handled 5 seconds after the
first, before that goroutine has made a call, and every collaborator
succeeding: one correction call and two sends, the rate-limit notice and the
corrected text. -/
theorem handleTwice_not_at_most_once :
    (handleTwice 4 exampleBot exampleUpdate deliveryTimeout deliveryLater).map
        (fun p => (correctCalls p.2, sendCalls p.2)) = some (2, 1)
    ∧ (handleTwice 4 exampleBot exampleUpdate deliverySendFails deliveryLater).map
        (fun p => (correctCalls p.2, sendCalls p.2)) = some (2, 2)
    ∧ (handleTwice 0 exampleBot exampleUpdate deliveryOk deliverySoon).map
        (fun p => (correctCalls p.2, sendCalls p.2)) = some (1, 2) := by
  refine ⟨?_, ?_, ?_⟩
  · rw [handleTwice_done 4 (le_refl 4), deliverTwice_example_timeout]
    decide
  · rw [handleTwice_done 4 (le_refl 4), deliverTwice_example_send_fails]
    decide
  · rw [handleTwice_example_overlap]
    decide

end bot

/-! ## The claims at sample inputs -/

namespace bot

open gotime ratelimit storage tgbotapi

/-- Claim C3, amended, at the sample update delivered at `t₀`, every
collaborator succeeding, and again 5 seconds later, after the goroutine of the
first delivery has returned. -/
theorem handleTwice_at_most_once_witness :
    ∃ b₂ es, handleTwice 4 exampleBot exampleUpdate deliveryOk deliverySoon = some (b₂, es)
      ∧ correctCalls es ≤ 1 ∧ sendCalls es ≤ 1 :=
  handleTwice_at_most_once 4 exampleBot exampleUpdate deliveryOk deliverySoon (le_refl 4) rfl rfl

/-- Claim C4 at a post whose text is a corrected text with its marker. -/
theorem marker_round_trip_witness :
    containsMarker (resolvedText markedPost) = some true
    ∧ exampleBot.store.WasProcessed (-1001234567890) 8 = false
    ∧ ∃ r, handleUpdate exampleBot t₀ none ⟨2, some markedPost⟩ = some r
      ∧ r = ⟨{ exampleBot with store := exampleBot.store.MarkProcessed (-1001234567890) 8 },
          [.WasProcessed (-1001234567890) 8, .MarkProcessed (-1001234567890) 8], none⟩
      ∧ correctCalls r.effects = 0
      ∧ r.bot.store.WasProcessed (-1001234567890) 8 = true :=
  ⟨by rw [containsMarker_eq]; decide, by decide,
    marker_round_trip.2.2 exampleBot t₀ none ⟨2, some markedPost⟩ markedPost ⟨-1001234567890⟩
      rfl rfl (by decide) markedPost_not_bot (by decide) (by decide)
      (by rw [containsMarker_eq]; decide)⟩

/-- Claim C5 at a correction call that exceeds its deadline. -/
theorem processMessage_correction_failure_witness :
    (processMessage exampleBot (-1001234567890) 7 (ofString "Превет мир")
        deliveryTimeout.replies).2 = [.CorrectText (ofString "Превет мир")]
    ∧ (processMessage exampleBot (-1001234567890) 7 (ofString "Превет мир")
        deliveryTimeout.replies).1 = exampleBot :=
  have h := processMessage_correction_failure exampleBot (-1001234567890) 7
    (ofString "Превет мир") deliveryTimeout.replies "context deadline exceeded" rfl
  ⟨h.1, h.2.2.2.1⟩

/-- Claim C6 at a run whose delete request fails and whose send succeeds. -/
theorem processMessage_success_order_witness :
    (processMessage exampleBot (-1001234567890) 7 (ofString "Превет мир") repliesDeleteFails).2
      = [.CorrectText (ofString "Превет мир"), .DeleteMessage (-1001234567890) 7,
          .Send (-1001234567890) (ofString "Привет, мир\n[spellchecked]"),
          .MarkProcessed (-1001234567890) 7]
    ∧ exampleBot.store.WasProcessed (-1001234567890) 7 = false
    ∧ (processMessage exampleBot (-1001234567890) 7 (ofString "Превет мир")
        repliesDeleteFails).1.store.WasProcessed (-1001234567890) 7 = true :=
  have h := processMessage_success_order exampleBot (-1001234567890) 7 (ofString "Превет мир")
    repliesDeleteFails rfl
  ⟨h.1, by decide, h.2.2.2.2.1 rfl⟩

/-- Claim C7 at the scenario of the specification: interval 600 s, last
admission at `t₀`, the post handled 5 s later. -/
theorem handleUpdate_rate_limited_witness :
    exampleBotAdmitted.limiter = { minInterval := 600 * Second, last := t₀ }
    ∧ (exampleBotAdmitted.limiter.Allow (t₀.Add (5 * Second))).1 = false
    ∧ exampleBotAdmitted.store.WasProcessed (-1001234567890) 7 = false
    ∧ ∃ r, handleUpdate exampleBotAdmitted (t₀.Add (5 * Second)) none exampleUpdate = some r
      ∧ r = ⟨{ exampleBotAdmitted with
                store := exampleBotAdmitted.store.MarkProcessed (-1001234567890) 7 },
          [.WasProcessed (-1001234567890) 7, .Allow (t₀.Add (5 * Second)),
            .Send (-1001234567890) rateLimitedText, .MarkProcessed (-1001234567890) 7],
          none⟩
      ∧ sendCalls r.effects = 1 ∧ correctCalls r.effects = 0 ∧ deleteCalls r.effects = 0
      ∧ r.bot.limiter = exampleBotAdmitted.limiter
      ∧ r.bot.store.WasProcessed (-1001234567890) 7 = true :=
  ⟨by decide, by decide, by decide,
    handleUpdate_rate_limited exampleBotAdmitted (t₀.Add (5 * Second)) none exampleUpdate
      examplePost ⟨-1001234567890⟩ rfl rfl (by decide) examplePost_not_bot (by decide)
      (by decide) (by rw [containsMarker_eq]; decide) (by decide)⟩

/-- Claim C8 at a post written by a bot: no call at all, the store not
queried. -/
theorem handleUpdate_drop_no_effects_witness :
    ∃ r, handleUpdate exampleBot t₀ none ⟨3, some botPost⟩ = some r
      ∧ r.bot = exampleBot ∧ r.spawned = none ∧ r.effects = [] :=
  have ⟨r, h, hb, hsp, _, _, _, _, hnone⟩ :=
    handleUpdate_drop_no_effects exampleBot t₀ none ⟨3, some botPost⟩
      (Or.inr ⟨botPost, rfl, Or.inr (Or.inr (Or.inl ⟨⟨99, true⟩, rfl, rfl⟩))⟩)
  ⟨r, h, hb, hsp, hnone ⟨botPost, ⟨99, true⟩, rfl, rfl, rfl⟩⟩

end bot
